import Mathlib

/-!
# A shallow embedding of `alsd.py` (Ableton Live set dumper)

This file embeds the core extraction-and-decoding subsystem of `alsd.py`
into Lean 4 and proves the specification's claims about it.

Modelling conventions:
* Python's dynamically typed scalar values are modelled by `PyValue`
  (`None`, `bool`, `int`, `float`, `str`).  Python floats are modelled as
  exact rationals (`Rat`); all float arithmetic appearing in the program
  (parsing decimal literals, subtraction) is exact on the values the
  claims mention.  Infinities and NaN literals are outside the model.
* Exceptions (`ValueError` from `int()`/`float()`, `TypeError` from
  applying them to `None` or subtracting non-numbers) are modelled with
  `Except PyErr`.
* The XML element tree is modelled by `Element`; `ElementTree` path
  lookups (`find`, `findall`) are modelled over explicit step lists.
-/

/-- A Python runtime exception, as raised by the builders. -/
inductive PyErr where
  | typeError
  | valueError
deriving DecidableEq, Repr

/-- An exact Python float value, kept as an unreduced fraction
`num / (denPred + 1)`.  Every float the program manipulates comes from
parsing a decimal literal or subtracting two such values, so this
representation is exact.  It is deliberately a plain pair of machine
integers so that every operation reduces in the kernel (Mathlib's `Rat`
arithmetic is irreducible); `pfVal` reads off the rational value. -/
structure PyFloat where
  num : Int
  denPred : Nat
deriving DecidableEq, Repr

/-- The (always positive) denominator. -/
def PyFloat.den (a : PyFloat) : Nat := a.denPred + 1

/-- Build a float from numerator and positive denominator. -/
def pf (n : Int) (d : Nat) : PyFloat := ⟨n, d - 1⟩

/-- The rational value of a `PyFloat`. -/
def pfVal (a : PyFloat) : Rat := (a.num : Rat) / (a.den : Rat)

/-- Negation. -/
def pfNeg (a : PyFloat) : PyFloat := ⟨-a.num, a.denPred⟩

/-- Exact subtraction `a - b` by cross multiplication. -/
def pfSub (a b : PyFloat) : PyFloat :=
  ⟨a.num * (b.den : Int) - b.num * (a.den : Int),
   a.denPred * b.denPred + a.denPred + b.denPred⟩

/-- Comparison `a ≤ b` by cross multiplication. -/
def pfLe (a b : PyFloat) : Bool :=
  decide (a.num * (b.den : Int) ≤ b.num * (a.den : Int))

/-- Is the float exactly zero (Python falsiness of a float)? -/
def pfIsZero (a : PyFloat) : Bool := a.num == 0

/-- Scale a float by `10 ^ e` (applying a parsed exponent part). -/
def pfApplyExp (a : PyFloat) : Int → PyFloat
  | .ofNat k => ⟨a.num * (10 : Int) ^ k, a.denPred⟩
  | .negSucc k => ⟨a.num, a.den * 10 ^ (k + 1) - 1⟩

deriving instance DecidableEq for Except

/-- A dynamically typed Python scalar value. -/
inductive PyValue where
  | noneV
  | boolV (b : Bool)
  | intV (n : Int)
  | floatV (q : PyFloat)
  | strV (s : String)
deriving DecidableEq, Repr

/-- Python truthiness of a scalar value (`bool(v)`). -/
def truthy : PyValue → Bool
  | .noneV => false
  | .boolV b => b
  | .intV n => n ≠ 0
  | .floatV q => !pfIsZero q
  | .strV s => s ≠ ""

/-- Is the value a Python `float`? -/
def isFloatV : PyValue → Bool
  | .floatV _ => true
  | _ => false

/-- Is the value a Python `int`? -/
def isIntV : PyValue → Bool
  | .intV _ => true
  | _ => false

/-! ## Python `int()` / `float()` string parsing -/

/-- ASCII whitespace stripped by Python's numeric constructors. -/
def wsChars : List Char := [' ', '\t', '\n', '\r', '\x0b', '\x0c']

/-- Strip leading and trailing whitespace. -/
def stripWs (cs : List Char) : List Char :=
  ((cs.dropWhile (wsChars.contains ·)).reverse.dropWhile (wsChars.contains ·)).reverse

/-- Value of a decimal digit string. -/
def digitsVal (cs : List Char) : Nat :=
  cs.foldl (fun a c => a * 10 + (c.toNat - 48)) 0

/-- Python `int(s)` on a `str`: optional surrounding whitespace, optional
sign, then a non-empty run of decimal digits; `none` models `ValueError`. -/
def pyIntParse (s : String) : Option Int :=
  match stripWs s.toList with
  | [] => none
  | '+' :: rest =>
      if rest ≠ [] ∧ rest.all Char.isDigit then some (digitsVal rest) else none
  | '-' :: rest =>
      if rest ≠ [] ∧ rest.all Char.isDigit then some (-(digitsVal rest : Int)) else none
  | cs =>
      if cs.all Char.isDigit then some (digitsVal cs) else none

/-- Split a char list at the first `e`/`E` exponent marker. -/
def expSplit (cs : List Char) : List Char × Option (List Char) :=
  match cs.findIdx? (fun c => c == 'e' || c == 'E') with
  | none => (cs, none)
  | some i => (cs.take i, some (cs.drop (i + 1)))

/-- Parse an unsigned decimal mantissa: `D+`, `D+.D*` or `.D+`. -/
def parseMantissa (cs : List Char) : Option PyFloat :=
  let p := cs.span Char.isDigit
  match p.2 with
  | [] => if p.1 = [] then none else some ⟨digitsVal p.1, 0⟩
  | '.' :: rest2 =>
      if rest2.all Char.isDigit ∧ (p.1 ≠ [] ∨ rest2 ≠ []) then
        some ⟨digitsVal p.1 * (10 : Int) ^ rest2.length + digitsVal rest2,
              10 ^ rest2.length - 1⟩
      else none
  | _ => none

/-- Parse an exponent part: optional sign then a non-empty digit run. -/
def parseExp (cs : List Char) : Option Int :=
  match cs with
  | '+' :: r => if r ≠ [] ∧ r.all Char.isDigit then some (digitsVal r) else none
  | '-' :: r => if r ≠ [] ∧ r.all Char.isDigit then some (-(digitsVal r : Int)) else none
  | r => if r ≠ [] ∧ r.all Char.isDigit then some (digitsVal r) else none

/-- Python `float(s)` on a `str`: optional whitespace and sign, decimal
mantissa, optional exponent; the value is kept exactly.  `none` models
`ValueError`.  (`inf`/`nan` literals are outside the model; no claim
involves them.) -/
def pyFloatParse (s : String) : Option PyFloat :=
  let cs := stripWs s.toList
  let sb : Bool × List Char :=
    match cs with
    | '+' :: r => (false, r)
    | '-' :: r => (true, r)
    | r => (false, r)
  let me := expSplit sb.2
  let signed : PyFloat → PyFloat := fun a => if sb.1 then pfNeg a else a
  match parseMantissa me.1, me.2 with
  | some m, none => some (signed m)
  | some m, some ecs => (parseExp ecs).map (fun e => signed (pfApplyExp m e))
  | none, _ => none

/-! ## Type inference (`BoolValue`, `guessTypeForValue`) -/

/-- The scalar type functions the program can infer
(`BoolValue`, `int`, `float`). -/
inductive TypeF where
  | bool
  | int
  | float
deriving DecidableEq, Repr

/-- The source's `BoolValue(str)`: `str == "true"`.  The argument is an
optional string because `valueForSubtag` can hand it `None`. -/
def BoolValue (v : Option String) : Bool := v == some "true"

/-- The source's `guessTypeForValue(v)`: `None` for `None` input, the
boolean type for the exact strings `"true"`/`"false"`, else the first of
`int`, `float` that parses, else `None` (just a string). -/
def guessTypeForValue : Option String → Option TypeF
  | none => none
  | some v =>
      if v = "true" ∨ v = "false" then some .bool
      else
        match pyIntParse v with
        | some _ => some .int
        | none =>
            match pyFloatParse v with
            | some _ => some .float
            | none => none

/-- Apply an inferred type function to an optional raw string, as the
program does with `typefunc = self.type and self.type or (lambda x:x)`:
an absent type is the identity; `int`/`float` raise `TypeError` on `None`
and `ValueError` on an unparsable string; `BoolValue` never raises. -/
def applyTF : Option TypeF → Option String → Except PyErr PyValue
  | none, none => .ok .noneV
  | none, some s => .ok (.strV s)
  | some .bool, v => .ok (.boolV (BoolValue v))
  | some .int, none => .error .typeError
  | some .int, some s =>
      match pyIntParse s with
      | some n => .ok (.intV n)
      | none => .error .valueError
  | some .float, none => .error .typeError
  | some .float, some s =>
      match pyFloatParse s with
      | some q => .ok (.floatV q)
      | none => .error .valueError

/-- The typed value obtained by inferring a type for a raw value and
coercing the raw value with it (the composition the program performs on
each `Manual` value). -/
def inferTypedValue (v : Option String) : Except PyErr PyValue :=
  applyTF (guessTypeForValue v) v

/-! ## Time-signature codec -/

/-- The source's `decodeTimeSignature(encoded)`:
`(encoded % 99 + 1, 1 << (encoded / 99))` with Python 2 floor integer
division; the claim scopes it to non-negative integers, so it is embedded
over `Nat`. -/
def decodeTimeSignature (encoded : Nat) : Nat × Nat :=
  (encoded % 99 + 1, 1 <<< (encoded / 99))

/-! ## The element tree (`xml.etree.ElementTree` as used by the program) -/

/-- An XML element: tag, attributes, optional text and child elements. -/
inductive Element where
  | mk (tag : String) (attrs : List (String × String)) (text : Option String)
       (children : List Element)

/-- The tag name. -/
def Element.tag : Element → String
  | .mk t _ _ _ => t

/-- The attribute list. -/
def Element.attrs : Element → List (String × String)
  | .mk _ a _ _ => a

/-- The text payload. -/
def Element.text : Element → Option String
  | .mk _ _ tx _ => tx

/-- The child elements, in document order. -/
def Element.children : Element → List Element
  | .mk _ _ _ cs => cs

/-- Attribute lookup `elem.get(name)`, `None` when absent. -/
def Element.get (e : Element) (name : String) : Option String :=
  e.attrs.lookup name

/-- One step of an `ElementTree` path: a tag name or the wildcard `*`. -/
inductive PathStep where
  | tagS (t : String)
  | star

/-- The children of `e` matched by one path step. -/
def childrenMatching (e : Element) : PathStep → List Element
  | .tagS t => e.children.filter (fun c => c.tag = t)
  | .star => e.children

/-- The lookup `elem.findall(path)`: all elements reached by the path, in document
order (for each match of the first step, recurse on the rest). -/
def findallP (e : Element) : List PathStep → List Element
  | [] => [e]
  | s :: rest => (childrenMatching e s).map (fun c => findallP c rest) |>.flatten

/-- The lookup `elem.find(path)`: the first element reached by the path, if any. -/
def findP (e : Element) (p : List PathStep) : Option Element :=
  (findallP e p).head?

/-- The children of `e` that themselves have a child tagged `t`; this is
`ElementTree`'s `findall("*[t]")` used for mixer parameters. -/
def childrenWithChildTag (e : Element) (t : String) : List Element :=
  e.children.filter (fun c => c.children.any (fun g => g.tag == t))

/-- The source's `bind` (the "maybe monad"): propagate `None`. -/
def pyBind (val : Option α) (f : α → β) : Option β := val.map f

/-- The source's `ALSNode.valueForSubtag(selector)`:
`bind(self.elem.find(selector), lambda e: e.get("Value"))`. -/
def valueForSubtag (e : Element) (sel : List PathStep) : Option String :=
  (findP e sel).bind (fun s => s.get "Value")

/-- The source's `ALSNode.boolValueForSubtag(selector)`:
`self.valueForSubtag(selector) == 'true'`.  Note that this is a plain
Python boolean: a missing subelement yields `False`, not `None`. -/
def boolValueForSubtag (e : Element) (sel : List PathStep) : PyValue :=
  .boolV (valueForSubtag e sel == some "true")

/-! ## The field extractor (`ALSNode.__init__` over `valuefields`) -/

/-- The coercions that occur in the program's `valuefields` tables:
`None` (keep the raw string), `int` and `float`. -/
inductive Coercion where
  | noCoerce
  | toInt
  | toFloat
deriving DecidableEq, Repr

/-- The result a coercion would produce on a raw string, `none` modelling
`ValueError`.  `noCoerce` keeps the raw string and never fails. -/
def coerceOk : Coercion → String → Option PyValue
  | .noCoerce, s => some (.strV s)
  | .toInt, s => (pyIntParse s).map .intV
  | .toFloat, s => (pyFloatParse s).map .floatV

/-- One field extraction from `ALSNode.__init__`: look up the selector's
`Value` attribute; if the value is truthy and a coercion is configured,
try it, keeping the raw string on `ValueError`.  (`if val:` skips the
coercion for the empty string; `int`/`float` would fail on it anyway.) -/
def extractField (e : Element) (sel : List PathStep) (c : Coercion) : PyValue :=
  match valueForSubtag e sel with
  | none => .noneV
  | some s =>
      if s = "" then .strV s
      else
        match c with
        | .noCoerce => .strV s
        | .toInt =>
            match pyIntParse s with
            | some n => .intV n
            | none => .strV s
        | .toFloat =>
            match pyFloatParse s with
            | some q => .floatV q
            | none => .strV s

/-! ## Python helpers used by the builders -/

/-- Map a fallible builder over a list, stopping at the first exception
(a Python list comprehension over a raising expression). -/
def exMap (f : α → Except PyErr β) : List α → Except PyErr (List β)
  | [] => .ok []
  | a :: as => do
      let b ← f a
      let bs ← exMap f as
      .ok (b :: bs)

/-- Python's binary `-` on scalar values: defined on numbers (with
booleans as integers), `TypeError` otherwise. -/
def pySub : PyValue → PyValue → Except PyErr PyValue
  | .intV a, .intV b => .ok (.intV (a - b))
  | .intV a, .floatV b => .ok (.floatV (pfSub ⟨a, 0⟩ b))
  | .intV a, .boolV b => .ok (.intV (a - (if b then 1 else 0)))
  | .floatV a, .intV b => .ok (.floatV (pfSub a ⟨b, 0⟩))
  | .floatV a, .floatV b => .ok (.floatV (pfSub a b))
  | .floatV a, .boolV b => .ok (.floatV (pfSub a ⟨if b then 1 else 0, 0⟩))
  | .boolV a, .intV b => .ok (.intV ((if a then 1 else 0) - b))
  | .boolV a, .floatV b => .ok (.floatV (pfSub ⟨if a then 1 else 0, 0⟩ b))
  | .boolV a, .boolV b => .ok (.intV ((if a then 1 else 0) - (if b then 1 else 0)))
  | _, _ => .error .typeError

/-- Python `int(x)` on an optional string: `TypeError` on `None`, `ValueError`
on an unparsable string. -/
def pyIntOfOpt : Option String → Except PyErr Int
  | none => .error .typeError
  | some s =>
      match pyIntParse s with
      | some n => .ok n
      | none => .error .valueError

/-- Python `float(x)` on an optional string: `TypeError` on `None`, `ValueError`
on an unparsable string. -/
def pyFloatOfOpt : Option String → Except PyErr PyFloat
  | none => .error .typeError
  | some s =>
      match pyFloatParse s with
      | some q => .ok q
      | none => .error .valueError

/-- The `X and Y or Z`-shaped derived-length idiom from
`LiveSetMidiClipData.__init__`:
`(a is not None and b is not None) and b - a or None`.
When the guard is true the subtraction is evaluated (and may raise);
`or None` then replaces a falsy (i.e. zero) difference with `None`. -/
def derivedLength (a b : PyValue) : Except PyErr PyValue :=
  if a ≠ PyValue.noneV ∧ b ≠ PyValue.noneV then
    (pySub b a).map (fun d => if truthy d then d else .noneV)
  else .ok .noneV

/-! ## Entity builders: warp markers, notes, clips -/

/-- The source's `ALSWarpMarker.__init__`: two mandatory float attributes. -/
structure ALSWarpMarker where
  secTime : PyFloat
  beatTime : PyFloat
deriving DecidableEq, Repr

/-- Build a warp marker; raises on a missing or malformed attribute. -/
def mkWarpMarker (e : Element) : Except PyErr ALSWarpMarker := do
  let st ← pyFloatOfOpt (e.get "SecTime")
  let bt ← pyFloatOfOpt (e.get "BeatTime")
  .ok ⟨st, bt⟩

/-- One note record (`ALSMidiNote`).  The time/duration are floats; the
stored representations of velocity (`float(...)`) and offVelocity
(`int(...)`) are kept as `PyValue` so their runtime type is observable. -/
structure ALSMidiNote where
  time : PyFloat
  key : Option Int
  duration : PyFloat
  velocity : PyValue
  offVelocity : PyValue
  isEnabled : Bool
deriving DecidableEq, Repr

/-- The source's `ALSMidiNote.__init__(key, elem)`:
`(float(Time), key, float(Duration), float(Velocity), int(OffVelocity),
IsEnabled == "true")`. -/
def mkMidiNote (key : Option Int) (e : Element) : Except PyErr ALSMidiNote := do
  let t ← pyFloatOfOpt (e.get "Time")
  let d ← pyFloatOfOpt (e.get "Duration")
  let v ← pyFloatOfOpt (e.get "Velocity")
  let ov ← pyIntOfOpt (e.get "OffVelocity")
  .ok ⟨t, key, d, .floatV v, .intV ov, e.get "IsEnabled" == some "true"⟩

/-- The notes contributed by one `KeyTrack` element: resolve the track's
key (`bind(ktrk.find("MidiKey"), lambda e: int(e.get("Value")))`, so an
absent `MidiKey` element gives an absent key), then build one note per
`Notes/MidiNoteEvent` child, in document order. -/
def keyTrackNotes (ktrk : Element) : Except PyErr (List ALSMidiNote) := do
  let key ← match findP ktrk [.tagS "MidiKey"] with
    | none => pure (none : Option Int)
    | some mk => (pyIntOfOpt (mk.get "Value")).map some
  exMap (mkMidiNote key) (findallP ktrk [.tagS "Notes", .tagS "MidiNoteEvent"])

/-- The note ordering used by `self.notes.sort(key=lambda mn: mn.time)`. -/
def noteLe (a b : ALSMidiNote) : Prop := pfLe a.time b.time = true

instance : DecidableRel noteLe := fun a b => decEq (pfLe a.time b.time) true

/-- The extracted clip model (`LiveSetMidiClipData`). -/
structure MidiClipData where
  name : PyValue
  annot : PyValue
  launchMode : PyValue
  currentStart : PyValue
  currentEnd : PyValue
  loopStart : PyValue
  loopEnd : PyValue
  loopStartRelative : PyValue
  warpmarkers : List ALSWarpMarker
  length : PyValue
  loopOn : PyValue
  loopLength : PyValue
  notes : List ALSMidiNote
deriving DecidableEq, Repr

/-- The source's `LiveSetMidiClipData.__init__`: extract the `valuefields` scalars,
build warp markers, derive `length`/`loopLength` with the `and`/`or`
idiom, read `loopOn`, then build the notes of every key track,
concatenate them and sort them (stably) by time.  Python's stable
`list.sort` is modelled by `List.insertionSort`, which is stable for the
`≤`-by-time relation. -/
def mkClip (e : Element) : Except PyErr MidiClipData := do
  let nameF := extractField e [.tagS "Name"] .noCoerce
  let annotF := extractField e [.tagS "Annotation"] .noCoerce
  let launchModeF := extractField e [.tagS "LaunchMode"] .toInt
  let currentStartF := extractField e [.tagS "CurrentStart"] .toFloat
  let currentEndF := extractField e [.tagS "CurrentEnd"] .toFloat
  let loopStartF := extractField e [.tagS "Loop", .tagS "LoopStart"] .toFloat
  let loopEndF := extractField e [.tagS "Loop", .tagS "LoopEnd"] .toFloat
  let loopStartRelativeF := extractField e [.tagS "Loop", .tagS "LoopStartRelative"] .toFloat
  let wms ← exMap mkWarpMarker (findallP e [.tagS "WarpMarkers", .tagS "WarpMarker"])
  let len ← derivedLength currentStartF currentEndF
  let loopOnF := boolValueForSubtag e [.tagS "Loop", .tagS "LoopOn"]
  let loopLen ← derivedLength loopStartF loopEndF
  let noteLists ← exMap keyTrackNotes (findallP e [.tagS "Notes", .tagS "KeyTracks", .tagS "KeyTrack"])
  .ok ⟨nameF, annotF, launchModeF, currentStartF, currentEndF, loopStartF,
       loopEndF, loopStartRelativeF, wms, len, loopOnF, loopLen,
       List.insertionSort noteLe noteLists.flatten⟩

/-! ## Mixer parameters (`ALSTrackMixerParam`, `ALSTrackMixer`) -/

/-- The built mixer parameter: the inferred type, the coerced manual
value and the automation events. -/
structure MixerParam where
  type : Option TypeF
  manual : PyValue
  events : List (Int × PyValue)
deriving DecidableEq, Repr

/-- One automation event `(int(e.get('Time')), typefunc(e.get('Value')))`. -/
def mkEvent (ty : Option TypeF) (ev : Element) : Except PyErr (Int × PyValue) := do
  let t ← pyIntOfOpt (ev.get "Time")
  let v ← applyTF ty (ev.get "Value")
  .ok (t, v)

/-- The source's `ALSTrackMixerParam.__init__`: read `Manual`, infer its type once,
coerce the manual value with it, then coerce every
`ArrangerAutomation/Events/*` child with the same type function. -/
def mkMixerParam (e : Element) : Except PyErr MixerParam := do
  let manualRaw := valueForSubtag e [.tagS "Manual"]
  let ty := guessTypeForValue manualRaw
  let m ← applyTF ty manualRaw
  let evs ← exMap (mkEvent ty) (findallP e [.tagS "ArrangerAutomation", .tagS "Events", .star])
  .ok ⟨ty, m, evs⟩

/-- The mixer model (`ALSTrackMixer`): one parameter per child element that has an
`ArrangerAutomation` child, keyed by tag name. -/
structure ALSTrackMixer where
  params : List (String × MixerParam)
deriving DecidableEq, Repr

/-- Build the mixer's parameter dictionary (`dict` keeps the last entry
for a duplicated key; `getParam` looks up accordingly). -/
def mkMixer (e : Element) : Except PyErr ALSTrackMixer := do
  let ps ← exMap (fun c => (mkMixerParam c).map (fun p => (c.tag, p)))
    (childrenWithChildTag e "ArrangerAutomation")
  .ok ⟨ps⟩

/-- Lookup `mixer.params[name]` (with Python `dict`'s last-wins key semantics). -/
def getParam (m : ALSTrackMixer) (name : String) : Option MixerParam :=
  m.params.reverse.lookup name

/-! ## Devices (`LiveSetDeviceData`) -/

/-- Python `or` on optional strings: an absent or empty left operand
falls through to the right operand. -/
def pyOrS (a b : Option String) : Option String :=
  match a with
  | some s => if s = "" then b else some s
  | none => b

/-- The path to the AU preset buffer element. -/
def auBufferPath : List PathStep :=
  [.tagS "PluginDesc", .tagS "AuPluginInfo", .tagS "Preset", .tagS "AuPreset", .tagS "Buffer"]

/-- The path to the AU plugin's declared-name element. -/
def auNamePath : List PathStep :=
  [.tagS "PluginDesc", .tagS "AuPluginInfo", .tagS "Name"]

/-- The path to the VST plugin's name value. -/
def vstNamePath : List PathStep :=
  [.tagS "PluginDesc", .tagS "VstPluginInfo", .tagS "PlugName"]

/-- The built device model. -/
structure DeviceData where
  deviceType : String
  auPresetName : Option String
  presetName : String
  name : String
deriving DecidableEq, Repr

/-- The source's `LiveSetDeviceData.__init__`, with the external hex + property-list
pipeline (`LiveSetAuPluginPresetData`: `decodeHexString` then
`plistlib.readPlistFromString(...).get('name')`) abstracted as the
oracle `plistName` mapping the buffer element's text to the plist's
optional `name` entry; the claims under study concern only the
name-resolution logic, not the fatal decode paths.

The resolution is the source's `or`-chain:
`valueForSubtag("UserName") or bind(find(PluginDesc/AuPluginInfo/Name),
lambda e: ': '.join([v for v in [e.get("Value"), auPresetName] if v is
not None])) or valueForSubtag("PluginDesc/VstPluginInfo/PlugName") or ""`. -/
def mkDevice (plistName : Option String → Option String) (e : Element) : DeviceData :=
  let auPresetName : Option String :=
    (findP e auBufferPath).bind (fun b => plistName b.text)
  let auCand : Option String :=
    (findP e auNamePath).map (fun ne =>
      String.intercalate ": " (([ne.get "Value", auPresetName].filterMap id)))
  let presetName :=
    (pyOrS (valueForSubtag e [.tagS "UserName"])
      (pyOrS auCand
        (pyOrS (valueForSubtag e vstNamePath) (some "")))).getD ""
  ⟨e.tag, auPresetName, presetName, e.tag ++ ": " ++ presetName⟩

/-! ## Spec-side definitions (for refinement claims) -/

/-- The first non-empty candidate of a list, else `""` (the spec's
"first non-empty candidate wins" resolution). -/
def firstNonEmpty : List (Option String) → String
  | [] => ""
  | none :: rest => firstNonEmpty rest
  | some s :: rest => if s = "" then firstNonEmpty rest else s

/-- The AU preset-buffer name: present exactly when the buffer element is
present, with the external plist pipeline abstracted as `plistName`. -/
def auPresetNameOf (plistName : Option String → Option String) (e : Element) : Option String :=
  (findP e auBufferPath).bind (fun b => plistName b.text)

/-- Candidate (b) as the claim words it: the AU descriptor's declared
name, suffixed with ": " plus the preset-buffer name only when the
preset-buffer name is also present.  With no declared name there is no
candidate. -/
def claimAuCandidate (plistName : Option String → Option String) (e : Element) : Option String :=
  (findP e auNamePath).bind (fun ne =>
    (ne.get "Value").map (fun n =>
      match auPresetNameOf plistName e with
      | some p => n ++ ": " ++ p
      | none => n))

/-- The claim's preset-name resolution: first non-empty of
user name, candidate (b), VST name, `""`. -/
def claimPresetName (plistName : Option String → Option String) (e : Element) : String :=
  firstNonEmpty [valueForSubtag e [.tagS "UserName"], claimAuCandidate plistName e,
                 valueForSubtag e vstNamePath]

/-- Candidate (b) as amended: when the AU descriptor's `Name` element is
present, join with ": " whichever of its `Value` attribute and the
preset-buffer name are present (so `"name: preset"`, `"name"`,
`"preset"`, or `""`). -/
def amendedAuCandidate (plistName : Option String → Option String) (e : Element) : Option String :=
  (findP e auNamePath).map (fun ne =>
    String.intercalate ": " ([ne.get "Value", auPresetNameOf plistName e].filterMap id))

/-- The amended preset-name resolution. -/
def amendedPresetName (plistName : Option String → Option String) (e : Element) : String :=
  firstNonEmpty [valueForSubtag e [.tagS "UserName"], amendedAuCandidate plistName e,
                 valueForSubtag e vstNamePath]

/-! ## Helper predicates for the theorems -/

/-- Does a value have the runtime type produced by an inferred type
function (`None`-typed parameters hold `None` or a raw string)? -/
def matchesType : Option TypeF → PyValue → Bool
  | none, .noneV => true
  | none, .strV _ => true
  | none, _ => false
  | some .bool, .boolV _ => true
  | some .bool, _ => false
  | some .int, .intV _ => true
  | some .int, _ => false
  | some .float, .floatV _ => true
  | some .float, _ => false

/-- Did the computation succeed (no exception)? -/
def isOkE : Except PyErr α → Bool
  | .ok _ => true
  | .error _ => false

/-! ## Concrete input elements for the witnesses and counterexamples -/

/-- A clip whose `CurrentStart` and `CurrentEnd` are both present and
equal (`2.0`). -/
def clipZeroElem : Element :=
  .mk "MidiClip" [] none
    [.mk "CurrentStart" [("Value", "2.0")] none [],
     .mk "CurrentEnd" [("Value", "2.0")] none []]

/-- A clip with `CurrentStart=2.0` and `CurrentEnd=10.0`. -/
def clipPosElem : Element :=
  .mk "MidiClip" [] none
    [.mk "CurrentStart" [("Value", "2.0")] none [],
     .mk "CurrentEnd" [("Value", "10.0")] none []]

/-- A clip element with every optional subelement missing. -/
def emptyClipElem : Element := .mk "MidiClip" [] none []

/-- A key track holding one note event. -/
def keyTrackElem (key : String) (time : String) : Element :=
  .mk "KeyTrack" [] none
    [.mk "MidiKey" [("Value", key)] none [],
     .mk "Notes" [] none
       [.mk "MidiNoteEvent"
         [("Time", time), ("Duration", "1"), ("Velocity", "100"),
          ("OffVelocity", "64"), ("IsEnabled", "true")] none []]]

/-- A clip whose two key tracks carry notes with out-of-order times
(`4` in the first key track, `1` in the second). -/
def clipNotesElem : Element :=
  .mk "MidiClip" [] none
    [.mk "Notes" [] none
      [.mk "KeyTracks" [] none
        [keyTrackElem "60" "4", keyTrackElem "62" "1"]]]

/-- An entity whose `LaunchMode` value is not an integer. -/
def rawFieldElem : Element :=
  .mk "MidiClip" [] none [.mk "LaunchMode" [("Value", "abc")] none []]

/-- A `Volume` mixer parameter with manual `0.75` and an empty
automation-events container. -/
def volParamElem : Element :=
  .mk "Volume" [] none
    [.mk "Manual" [("Value", "0.75")] none [],
     .mk "ArrangerAutomation" [] none [.mk "Events" [] none []]]

/-- A mixer holding only `volParamElem`. -/
def volMixerElem : Element := .mk "Mixer" [] none [volParamElem]

/-- An automation event whose value `"abc"` cannot be coerced by the
float type inferred from the manual value. -/
def badEventElem : Element :=
  .mk "FloatEvent" [("Time", "0"), ("Value", "abc")] none []

/-- A mixer parameter with manual `0.75` (inferring `float`) and one
non-coercible automation event. -/
def badParamElem : Element :=
  .mk "Volume" [] none
    [.mk "Manual" [("Value", "0.75")] none [],
     .mk "ArrangerAutomation" [] none [.mk "Events" [] none [badEventElem]]]

/-- A note event with `Velocity="100"` and `OffVelocity="64"`. -/
def noteVelElem : Element :=
  .mk "MidiNoteEvent"
    [("Time", "0"), ("Duration", "1"), ("Velocity", "100"),
     ("OffVelocity", "64"), ("IsEnabled", "true")] none []

/-- A plist-name oracle that extracts the name `"P"` from any buffer. -/
def oracleP : Option String → Option String := fun _ => some "P"

/-- A device with no `UserName`, an AU `Name` element carrying no `Value`
attribute, and a preset buffer (whose plist name is `"P"` under
`oracleP`). -/
def deviceNoValueElem : Element :=
  .mk "AuPluginDevice" [] none
    [.mk "PluginDesc" [] none
      [.mk "AuPluginInfo" [] none
        [.mk "Name" [] none [],
         .mk "Preset" [] none
           [.mk "AuPreset" [] none
             [.mk "Buffer" [] (some "0123") []]]]]]

/-- A device with an explicit user-assigned name `"Lead"` alongside a
full AU descriptor and preset buffer. -/
def leadDeviceElem : Element :=
  .mk "AuPluginDevice" [] none
    [.mk "UserName" [("Value", "Lead")] none [],
     .mk "PluginDesc" [] none
      [.mk "AuPluginInfo" [] none
        [.mk "Name" [("Value", "SomeSynth")] none [],
         .mk "Preset" [] none
           [.mk "AuPreset" [] none
             [.mk "Buffer" [] (some "0123") []]]]]]

/-- The clip built from `clipPosElem`. -/
def clipPosResult : MidiClipData :=
  ⟨.noneV, .noneV, .noneV, .floatV ⟨20, 9⟩, .floatV ⟨100, 9⟩, .noneV, .noneV,
   .noneV, [], .floatV ⟨800, 99⟩, .boolV false, .noneV, []⟩

/-- The clip built from `emptyClipElem`. -/
def emptyClipResult : MidiClipData :=
  ⟨.noneV, .noneV, .noneV, .noneV, .noneV, .noneV, .noneV, .noneV, [],
   .noneV, .boolV false, .noneV, []⟩

/-- The clip built from `clipNotesElem`. -/
def clipNotesResult : MidiClipData :=
  ⟨.noneV, .noneV, .noneV, .noneV, .noneV, .noneV, .noneV, .noneV, [],
   .noneV, .boolV false, .noneV,
   [⟨⟨1, 0⟩, some 62, ⟨1, 0⟩, .floatV ⟨100, 0⟩, .intV 64, true⟩,
    ⟨⟨4, 0⟩, some 60, ⟨1, 0⟩, .floatV ⟨100, 0⟩, .intV 64, true⟩]⟩

/-- The mixer parameter built from `volParamElem`. -/
def volParamResult : MixerParam := ⟨some .float, .floatV ⟨75, 99⟩, []⟩

/-- The note built from `noteVelElem`. -/
def noteVelResult : ALSMidiNote :=
  ⟨⟨0, 0⟩, some 60, ⟨1, 0⟩, .floatV ⟨100, 0⟩, .intV 64, true⟩

/-! ## Helper lemmas -/

theorem exBind_ok {x : Except PyErr α} {f : α → Except PyErr β} {b : β}
    (h : x >>= f = .ok b) : ∃ a, x = .ok a ∧ f a = .ok b := by
  cases x with
  | ok a => exact ⟨a, rfl, h⟩
  | error er => simp [Bind.bind, Except.bind] at h

theorem exMap_ok_rel {f : α → Except PyErr β} :
    ∀ {l : List α} {ys : List β}, exMap f l = .ok ys →
      List.Forall₂ (fun a b => f a = .ok b) l ys := by
  intro l
  induction l with
  | nil => intro ys h; cases h; exact .nil
  | cons a as ih =>
      intro ys h
      unfold exMap at h
      obtain ⟨b, hb, h⟩ := exBind_ok h
      obtain ⟨bs, hbs, h⟩ := exBind_ok h
      cases h
      exact .cons hb (ih hbs)

theorem forall2_mem_right {R : α → β → Prop} {l : List α} {ys : List β}
    (h : List.Forall₂ R l ys) : ∀ {y : β}, y ∈ ys → ∃ x ∈ l, R x y := by
  induction h with
  | nil => intro y hy; cases hy
  | cons hfa _ ih =>
      intro y hy
      rcases List.mem_cons.mp hy with rfl | hy
      · exact ⟨_, List.mem_cons_self _ _, hfa⟩
      · obtain ⟨x, hx, hfx⟩ := ih hy
        exact ⟨x, List.mem_cons_of_mem _ hx, hfx⟩

theorem exMap_mem_ok {f : α → Except PyErr β} {l : List α} {ys : List β}
    (h : exMap f l = .ok ys) {y : β} (hy : y ∈ ys) :
    ∃ x ∈ l, f x = .ok y :=
  forall2_mem_right (exMap_ok_rel h) hy

theorem exMap_error_of_mem {f : α → Except PyErr β} :
    ∀ {l : List α} {x : α} {er : PyErr}, x ∈ l → f x = .error er →
      ∃ er2, exMap f l = .error er2 := by
  intro l
  induction l with
  | nil => intro x er hx; cases hx
  | cons a as ih =>
      intro x er hx hfx
      unfold exMap
      rcases List.mem_cons.mp hx with rfl | hx
      · exact ⟨er, by simp [hfx, Bind.bind, Except.bind]⟩
      · cases ha : f a with
        | error er3 => exact ⟨er3, by simp [ha, Bind.bind, Except.bind]⟩
        | ok b =>
            obtain ⟨er2, h2⟩ := ih hx hfx
            exact ⟨er2, by simp [ha, h2, Bind.bind, Except.bind]⟩

theorem applyTF_guess_ok (r : Option String) :
    ∃ v, applyTF (guessTypeForValue r) r = .ok v := by
  cases r with
  | none => exact ⟨.noneV, rfl⟩
  | some s =>
      by_cases hb : s = "true" ∨ s = "false"
      · exact ⟨.boolV (BoolValue (some s)), by simp [guessTypeForValue, hb, applyTF]⟩
      · cases hi : pyIntParse s with
        | some n => exact ⟨.intV n, by simp [guessTypeForValue, hb, hi, applyTF]⟩
        | none =>
            cases hf : pyFloatParse s with
            | some q => exact ⟨.floatV q, by simp [guessTypeForValue, hb, hi, hf, applyTF]⟩
            | none => exact ⟨.strV s, by simp [guessTypeForValue, hb, hi, hf, applyTF]⟩

theorem applyTF_matches {ty : Option TypeF} {r : Option String} {v : PyValue}
    (h : applyTF ty r = .ok v) : matchesType ty v = true := by
  cases ty with
  | none => cases r <;> cases h <;> rfl
  | some t =>
      cases t with
      | bool => cases h; rfl
      | int =>
          cases r with
          | none => cases h
          | some s =>
              simp only [applyTF] at h
              split at h <;> cases h
              rfl
      | float =>
          cases r with
          | none => cases h
          | some s =>
              simp only [applyTF] at h
              split at h <;> cases h
              rfl

theorem pfSub_val (a b : PyFloat) : pfVal (pfSub a b) = pfVal a - pfVal b := by
  unfold pfVal pfSub PyFloat.den
  have ha : ((a.denPred : Rat) + 1) ≠ 0 := by positivity
  have hb : ((b.denPred : Rat) + 1) ≠ 0 := by positivity
  push_cast
  field_simp
  ring

theorem pfIsZero_val (a : PyFloat) : pfIsZero a = true ↔ pfVal a = 0 := by
  unfold pfIsZero pfVal
  have hden : ((a.den : Rat)) ≠ 0 := by unfold PyFloat.den; positivity
  rw [beq_iff_eq, div_eq_zero_iff]
  constructor
  · intro h; left; exact_mod_cast h
  · rintro (h | h)
    · exact_mod_cast h
    · exact absurd h hden

theorem pfLe_val (a b : PyFloat) : pfLe a b = true ↔ pfVal a ≤ pfVal b := by
  unfold pfLe pfVal
  rw [decide_eq_true_eq,
    div_le_div_iff₀ (by unfold PyFloat.den; positivity) (by unfold PyFloat.den; positivity)]
  constructor <;> intro h <;> exact_mod_cast h

theorem noteLe_trans {a b c : ALSMidiNote} (h1 : noteLe a b) (h2 : noteLe b c) :
    noteLe a c := by
  unfold noteLe at *
  rw [pfLe_val] at *
  exact le_trans h1 h2

theorem noteLe_total (a b : ALSMidiNote) : noteLe a b ∨ noteLe b a := by
  unfold noteLe
  rw [pfLe_val, pfLe_val]
  exact le_total _ _

theorem pyOrS_first (a b c : Option String) :
    (pyOrS a (pyOrS b (pyOrS c (some "")))).getD "" = firstNonEmpty [a, b, c] := by
  cases a <;> cases b <;> cases c <;>
    simp only [pyOrS, firstNonEmpty, Option.getD_some] <;>
    (try split_ifs) <;> simp_all [firstNonEmpty]

theorem derivedLength_none {a b : PyValue} (h : a = .noneV ∨ b = .noneV) :
    derivedLength a b = .ok .noneV := by
  unfold derivedLength
  rcases h with rfl | rfl <;> simp

theorem derivedLength_float_code (a b : PyFloat) :
    derivedLength (.floatV a) (.floatV b) =
      .ok (if pfIsZero (pfSub b a) then PyValue.noneV else .floatV (pfSub b a)) := by
  unfold derivedLength
  rw [if_pos ⟨by simp, by simp⟩]
  show Except.ok (if truthy (.floatV (pfSub b a)) then PyValue.floatV (pfSub b a) else .noneV) = _
  cases hz : pfIsZero (pfSub b a) <;> simp [truthy, hz]

theorem pfIsZero_sub_iff (a b : PyFloat) :
    (pfIsZero (pfSub b a) = true) ↔ pfVal b - pfVal a = 0 := by
  rw [pfIsZero_val, pfSub_val]

theorem mkClip_ok {e : Element} {c : MidiClipData} (h : mkClip e = .ok c) :
    ∃ wms len loopLen noteLists,
      exMap mkWarpMarker (findallP e [.tagS "WarpMarkers", .tagS "WarpMarker"]) = .ok wms ∧
      derivedLength (extractField e [.tagS "CurrentStart"] .toFloat)
        (extractField e [.tagS "CurrentEnd"] .toFloat) = .ok len ∧
      derivedLength (extractField e [.tagS "Loop", .tagS "LoopStart"] .toFloat)
        (extractField e [.tagS "Loop", .tagS "LoopEnd"] .toFloat) = .ok loopLen ∧
      exMap keyTrackNotes (findallP e [.tagS "Notes", .tagS "KeyTracks", .tagS "KeyTrack"]) =
        .ok noteLists ∧
      c = ⟨extractField e [.tagS "Name"] .noCoerce,
           extractField e [.tagS "Annotation"] .noCoerce,
           extractField e [.tagS "LaunchMode"] .toInt,
           extractField e [.tagS "CurrentStart"] .toFloat,
           extractField e [.tagS "CurrentEnd"] .toFloat,
           extractField e [.tagS "Loop", .tagS "LoopStart"] .toFloat,
           extractField e [.tagS "Loop", .tagS "LoopEnd"] .toFloat,
           extractField e [.tagS "Loop", .tagS "LoopStartRelative"] .toFloat,
           wms, len, boolValueForSubtag e [.tagS "Loop", .tagS "LoopOn"], loopLen,
           List.insertionSort noteLe noteLists.flatten⟩ := by
  unfold mkClip at h
  obtain ⟨wms, hw, h⟩ := exBind_ok h
  obtain ⟨len, hl, h⟩ := exBind_ok h
  obtain ⟨loopLen, hll, h⟩ := exBind_ok h
  obtain ⟨noteLists, hn, h⟩ := exBind_ok h
  cases h
  exact ⟨wms, len, loopLen, noteLists, hw, hl, hll, hn, rfl⟩

theorem mkMidiNote_ok {key : Option Int} {e : Element} {n : ALSMidiNote}
    (h : mkMidiNote key e = .ok n) :
    ∃ t d v ov,
      pyFloatOfOpt (e.get "Time") = .ok t ∧
      pyFloatOfOpt (e.get "Duration") = .ok d ∧
      pyFloatOfOpt (e.get "Velocity") = .ok v ∧
      pyIntOfOpt (e.get "OffVelocity") = .ok ov ∧
      n = ⟨t, key, d, .floatV v, .intV ov, e.get "IsEnabled" == some "true"⟩ := by
  unfold mkMidiNote at h
  obtain ⟨t, ht, h⟩ := exBind_ok h
  obtain ⟨d, hd, h⟩ := exBind_ok h
  obtain ⟨v, hv, h⟩ := exBind_ok h
  obtain ⟨ov, hov, h⟩ := exBind_ok h
  cases h
  exact ⟨t, d, v, ov, ht, hd, hv, hov, rfl⟩

theorem mkMixerParam_ok {e : Element} {p : MixerParam} (h : mkMixerParam e = .ok p) :
    ∃ m evs,
      applyTF (guessTypeForValue (valueForSubtag e [.tagS "Manual"]))
        (valueForSubtag e [.tagS "Manual"]) = .ok m ∧
      exMap (mkEvent (guessTypeForValue (valueForSubtag e [.tagS "Manual"])))
        (findallP e [.tagS "ArrangerAutomation", .tagS "Events", .star]) = .ok evs ∧
      p = ⟨guessTypeForValue (valueForSubtag e [.tagS "Manual"]), m, evs⟩ := by
  unfold mkMixerParam at h
  obtain ⟨m, hm, h⟩ := exBind_ok h
  obtain ⟨evs, hevs, h⟩ := exBind_ok h
  cases h
  exact ⟨m, evs, hm, hevs, rfl⟩

theorem mkEvent_ok {ty : Option TypeF} {ev : Element} {tv : Int × PyValue}
    (h : mkEvent ty ev = .ok tv) :
    ∃ t v, pyIntOfOpt (ev.get "Time") = .ok t ∧
      applyTF ty (ev.get "Value") = .ok v ∧ tv = (t, v) := by
  unfold mkEvent at h
  obtain ⟨t, ht, h⟩ := exBind_ok h
  obtain ⟨v, hv, h⟩ := exBind_ok h
  cases h
  exact ⟨t, v, ht, hv, rfl⟩

/-! ## The claims -/

/-- C1: type inference follows the stated precedence: `None` input gives
`None`; the exact strings `"true"`/`"false"` give booleans (checked
before any numeric parse); otherwise an integer parse is tried, then a
float parse, else the value stays an opaque string.  The example values
`inferType("3") = Integer(3)`, `inferType("2.5") = Float(2.5)` (i.e. the
rational 5/2), `inferType("abc") = String("abc")` all hold. -/
theorem inferType_precedence :
    inferTypedValue none = .ok .noneV ∧
    inferTypedValue (some "true") = .ok (.boolV true) ∧
    inferTypedValue (some "false") = .ok (.boolV false) ∧
    inferTypedValue (some "3") = .ok (.intV 3) ∧
    inferTypedValue (some "2.5") = .ok (.floatV (pf 25 10)) ∧
    pfVal (pf 25 10) = 5 / 2 ∧
    inferTypedValue (some "abc") = .ok (.strV "abc") ∧
    guessTypeForValue (some "true") = some .bool ∧
    guessTypeForValue (some "false") = some .bool ∧
    (∀ v : String,
      guessTypeForValue (some v) =
        if v = "true" ∨ v = "false" then some .bool
        else if (pyIntParse v).isSome then some .int
        else if (pyFloatParse v).isSome then some .float
        else none) := by
  refine ⟨rfl, rfl, rfl, rfl, rfl, ?_, rfl, rfl, rfl, ?_⟩
  · norm_num [pfVal, pf, PyFloat.den]
  · intro v
    unfold guessTypeForValue
    dsimp only
    by_cases hb : v = "true" ∨ v = "false"
    · simp [hb]
    · rw [if_neg hb, if_neg hb]
      cases hi : pyIntParse v <;>
        cases hf : pyFloatParse v <;> simp [hi, hf]

/-- C2: the time-signature codec returns
`(encoded mod 99 + 1, 2 ^ (encoded div 99))` for every non-negative
integer, with the stated example values; it is a total function. -/
theorem decodeTimeSignature_spec :
    (∀ e : Nat, decodeTimeSignature e = (e % 99 + 1, 2 ^ (e / 99))) ∧
    decodeTimeSignature 0 = (1, 1) ∧ decodeTimeSignature 98 = (99, 1) ∧
    decodeTimeSignature 99 = (1, 2) ∧ decodeTimeSignature 198 = (1, 4) :=
  ⟨fun e => by unfold decodeTimeSignature; rw [Nat.one_shiftLeft],
   by decide, by decide, by decide, by decide⟩

/-- C3: the built notes sequence of any successfully constructed clip is
non-decreasing in time, however note events were grouped into key
tracks: per-key-track notes are concatenated and then stably sorted
ascending by time. -/
theorem clip_notes_sorted (e : Element) (c : MidiClipData)
    (h : mkClip e = .ok c) :
    c.notes.Pairwise (fun a b => pfVal a.time ≤ pfVal b.time) := by
  obtain ⟨wms, len, loopLen, nls, _, _, _, _, rfl⟩ := mkClip_ok h
  have hs : (List.insertionSort noteLe nls.flatten).Pairwise noteLe := by
    haveI : IsTotal ALSMidiNote noteLe := ⟨noteLe_total⟩
    haveI : IsTrans ALSMidiNote noteLe := ⟨fun _ _ _ h1 h2 => noteLe_trans h1 h2⟩
    exact List.sorted_insertionSort noteLe _
  exact hs.imp (fun hab => (pfLe_val _ _).mp hab)

/-- Witness for C3: a clip with two key tracks whose events arrive with
times 4 then 1 still yields a time-sorted notes list. -/
theorem clip_notes_sorted_witness :
    clipNotesResult.notes.Pairwise (fun a b => pfVal a.time ≤ pfVal b.time) :=
  clip_notes_sorted clipNotesElem clipNotesResult rfl

/-- Counterexample to C4 as stated: a clip with `CurrentStart = 2.0` and
`CurrentEnd = 2.0` has both bounds present, yet its derived `length` is
absent (`None`), not `0.0`: the `and`/`or` idiom collapses a zero (falsy)
difference to `None`. -/
theorem clip_length_zero_counterexample :
    (mkClip clipZeroElem).map (fun c => (c.currentStart, c.currentEnd, c.length)) =
      .ok (.floatV (pf 20 10), .floatV (pf 20 10), .noneV) ∧
    (PyValue.noneV ≠ .floatV (pfSub (pf 20 10) (pf 20 10))) :=
  ⟨rfl, by decide⟩

/-- C4 amended: with both bounds present, `length` is `currentEnd −
currentStart` when that difference is nonzero and absent when the
difference is zero; `length` is absent when either bound is missing
(likewise for `loopLength` from the loop bounds). -/
theorem clip_length_amended (e : Element) (c : MidiClipData)
    (h : mkClip e = .ok c) :
    ((c.currentStart = .noneV ∨ c.currentEnd = .noneV) → c.length = .noneV) ∧
    (∀ a b, c.currentStart = .floatV a → c.currentEnd = .floatV b →
       c.length = (if pfVal b - pfVal a = 0 then PyValue.noneV
                   else .floatV (pfSub b a)) ∧
       pfVal (pfSub b a) = pfVal b - pfVal a) ∧
    ((c.loopStart = .noneV ∨ c.loopEnd = .noneV) → c.loopLength = .noneV) ∧
    (∀ a b, c.loopStart = .floatV a → c.loopEnd = .floatV b →
       c.loopLength = (if pfVal b - pfVal a = 0 then PyValue.noneV
                       else .floatV (pfSub b a)) ∧
       pfVal (pfSub b a) = pfVal b - pfVal a) := by
  obtain ⟨wms, len, loopLen, nls, hw, hl, hll, hn, rfl⟩ := mkClip_ok h
  refine ⟨?_, ?_, ?_, ?_⟩
  · intro hor
    have hlen : Except.ok PyValue.noneV = Except.ok len :=
      (derivedLength_none hor).symm.trans hl
    cases hlen
    rfl
  · intro a b ha hb
    have ha' : extractField e [.tagS "CurrentStart"] .toFloat = .floatV a := ha
    have hb' : extractField e [.tagS "CurrentEnd"] .toFloat = .floatV b := hb
    rw [ha', hb', derivedLength_float_code] at hl
    cases hl
    exact ⟨if_congr (pfIsZero_sub_iff a b) rfl rfl, pfSub_val b a⟩
  · intro hor
    have hlen : Except.ok PyValue.noneV = Except.ok loopLen :=
      (derivedLength_none hor).symm.trans hll
    cases hlen
    rfl
  · intro a b ha hb
    have ha' : extractField e [.tagS "Loop", .tagS "LoopStart"] .toFloat = .floatV a := ha
    have hb' : extractField e [.tagS "Loop", .tagS "LoopEnd"] .toFloat = .floatV b := hb
    rw [ha', hb', derivedLength_float_code] at hll
    cases hll
    exact ⟨if_congr (pfIsZero_sub_iff a b) rfl rfl, pfSub_val b a⟩

/-- Witness for C4 (amended): `CurrentStart = 2.0`, `CurrentEnd = 10.0`
gives `length = 8.0` (`800/100`). -/
theorem clip_length_amended_witness :
    clipPosResult.length =
      (if pfVal (pf 100 10) - pfVal (pf 20 10) = 0 then PyValue.noneV
       else .floatV (pfSub (pf 100 10) (pf 20 10))) ∧
    clipPosResult.length = .floatV (pf 800 100) :=
  ⟨((clip_length_amended clipPosElem clipPosResult rfl).2.1
      (pf 20 10) (pf 100 10) rfl rfl).1, rfl⟩

/-- C5: for every field specification, the extractor yields an absent
value when the selector finds no subelement or no `Value` attribute,
keeps the raw string unchanged when the configured coercion fails, and
stores the coerced value when it succeeds — it always produces a value
(it is a total function), never an exception. -/
theorem extractField_tolerant (e : Element) (sel : List PathStep) (c : Coercion) :
    (valueForSubtag e sel = none → extractField e sel c = .noneV) ∧
    (∀ s, valueForSubtag e sel = some s → coerceOk c s = none →
        extractField e sel c = .strV s) ∧
    (∀ s v, valueForSubtag e sel = some s → coerceOk c s = some v →
        extractField e sel c = v) := by
  refine ⟨?_, ?_, ?_⟩
  · intro h
    unfold extractField
    rw [h]
  · intro s hs hc
    unfold extractField
    rw [hs]
    dsimp only
    by_cases he : s = ""
    · simp [he]
    · rw [if_neg he]
      cases c with
      | noCoerce => rfl
      | toInt =>
          simp only [coerceOk, Option.map_eq_none'] at hc
          rw [hc]
      | toFloat =>
          simp only [coerceOk, Option.map_eq_none'] at hc
          rw [hc]
  · intro s v hs hc
    unfold extractField
    rw [hs]
    dsimp only
    cases c with
    | noCoerce =>
        simp only [coerceOk, Option.some.injEq] at hc
        subst hc
        by_cases he : s = "" <;> simp [he]
    | toInt =>
        simp only [coerceOk] at hc
        cases hp : pyIntParse s with
        | none => rw [hp] at hc; cases hc
        | some n =>
            rw [hp] at hc
            cases hc
            have he : s ≠ "" := by
              intro h0
              subst h0
              rw [show pyIntParse "" = none from rfl] at hp
              cases hp
            rw [if_neg he]
    | toFloat =>
        simp only [coerceOk] at hc
        cases hp : pyFloatParse s with
        | none => rw [hp] at hc; cases hc
        | some q =>
            rw [hp] at hc
            cases hc
            have he : s ≠ "" := by
              intro h0
              subst h0
              rw [show pyFloatParse "" = none from rfl] at hp
              cases hp
            rw [if_neg he]

/-- Witness for C5: a `LaunchMode` value `"abc"` fails the integer
coercion and the raw string is retained. -/
theorem extractField_tolerant_witness :
    extractField rawFieldElem [.tagS "LaunchMode"] .toInt = .strV "abc" :=
  (extractField_tolerant rawFieldElem [.tagS "LaunchMode"] .toInt).2.1 "abc" rfl rfl

/-- Counterexample to C6 as stated: a device with no user name, an AU
`Name` element carrying no `Value` attribute, and a preset-buffer name
`"P"` resolves `presetName = "P"` — the code joins whichever components
are present, whereas candidate (b) of the claim (the declared name,
optionally suffixed) is unavailable without a declared name, making the
claimed resolution yield `""`. -/
theorem presetName_claim_counterexample :
    (mkDevice oracleP deviceNoValueElem).presetName = "P" ∧
    claimPresetName oracleP deviceNoValueElem = "" ∧
    ("P" : String) ≠ "" :=
  ⟨rfl, rfl, by decide⟩

/-- C6 amended: `presetName` is the first non-empty candidate of (a) the
user-assigned name, (b) — when the AU descriptor's `Name` element is
present — the ": "-join of whichever of its declared-name attribute and
the preset-buffer name are present, (c) the VST descriptor's name, (d)
`""`; a device with user name `"Lead"` always resolves `"Lead"`. -/
theorem presetName_amended (plistName : Option String → Option String)
    (e : Element) :
    (mkDevice plistName e).presetName = amendedPresetName plistName e ∧
    (valueForSubtag e [.tagS "UserName"] = some "Lead" →
      (mkDevice plistName e).presetName = "Lead") := by
  have hmain : (mkDevice plistName e).presetName = amendedPresetName plistName e :=
    pyOrS_first _ _ _
  refine ⟨hmain, ?_⟩
  intro hu
  rw [hmain]
  unfold amendedPresetName
  rw [hu]
  rfl

/-- Witness for C6 (amended): the `"Lead"` device resolves `"Lead"`
despite a full AU descriptor and preset buffer. -/
theorem presetName_amended_witness :
    (mkDevice oracleP leadDeviceElem).presetName = "Lead" :=
  (presetName_amended oracleP leadDeviceElem).2 rfl

/-- C7: a successfully built mixer parameter has exactly one type,
inferred once from the raw `Manual` value; the manual value and every
automation event value carry that type's runtime representation, and the
events correspond one-to-one, in document order, to the automation
container's children, each coerced by the same inferred type. -/
theorem mixerParam_homogeneous (e : Element) (p : MixerParam)
    (h : mkMixerParam e = .ok p) :
    p.type = guessTypeForValue (valueForSubtag e [.tagS "Manual"]) ∧
    matchesType p.type p.manual = true ∧
    List.Forall₂ (fun ev tv => mkEvent p.type ev = .ok tv)
      (findallP e [.tagS "ArrangerAutomation", .tagS "Events", .star]) p.events ∧
    (∀ tv ∈ p.events, matchesType p.type tv.2 = true) := by
  obtain ⟨m, evs, hm, hevs, rfl⟩ := mkMixerParam_ok h
  refine ⟨rfl, applyTF_matches hm, exMap_ok_rel hevs, ?_⟩
  intro tv htv
  obtain ⟨ev, _, hev⟩ := exMap_mem_ok hevs htv
  obtain ⟨t, v, _, hv, rfl⟩ := mkEvent_ok hev
  exact applyTF_matches hv

/-- Witness for C7: a mixer whose `Volume` parameter has manual `"0.75"`
and no automation events yields `params["Volume"].manual = 0.75`
(a float, `75/100`) and `events = []`. -/
theorem mixerParam_homogeneous_witness :
    mkMixer volMixerElem = .ok ⟨[("Volume", volParamResult)]⟩ ∧
    getParam ⟨[("Volume", volParamResult)]⟩ "Volume" = some volParamResult ∧
    volParamResult.manual = .floatV (pf 75 100) ∧
    volParamResult.events = [] ∧
    volParamResult.type = some .float ∧
    matchesType volParamResult.type volParamResult.manual = true :=
  ⟨rfl, rfl, rfl, rfl, rfl,
   (mixerParam_homogeneous volParamElem volParamResult rfl).2.1⟩

/-- Counterexample to C8 as stated: a clip element with no
`Loop/LoopOn` subelement still gets `loopOn = False` — a present
boolean, not an absent value (and indistinguishable from an explicit
`"false"`). -/
theorem loopOn_absent_counterexample :
    (mkClip emptyClipElem).map (fun c => c.loopOn) = .ok (.boolV false) ∧
    valueForSubtag emptyClipElem [.tagS "Loop", .tagS "LoopOn"] = none ∧
    ((PyValue.boolV false) ≠ .noneV) :=
  ⟨rfl, rfl, by decide⟩

/-- C8 amended: when a field's source subelement is missing,
construction still succeeds; fields read through the generic extractor
default to absent, while the boolean `loopOn` field defaults to the
present value `False`. -/
theorem clip_missing_defaults (e : Element) (c : MidiClipData)
    (h : mkClip e = .ok c) :
    (valueForSubtag e [.tagS "Loop", .tagS "LoopOn"] = none →
      c.loopOn = .boolV false) ∧
    (valueForSubtag e [.tagS "Name"] = none → c.name = .noneV) ∧
    (valueForSubtag e [.tagS "CurrentStart"] = none → c.currentStart = .noneV) := by
  obtain ⟨wms, len, loopLen, nls, hw, hl, hll, hn, rfl⟩ := mkClip_ok h
  refine ⟨?_, ?_, ?_⟩
  · intro hnone
    show boolValueForSubtag e [.tagS "Loop", .tagS "LoopOn"] = .boolV false
    unfold boolValueForSubtag
    rw [hnone]
    rfl
  · intro hnone
    show extractField e [.tagS "Name"] .noCoerce = .noneV
    unfold extractField
    rw [hnone]
  · intro hnone
    show extractField e [.tagS "CurrentStart"] .toFloat = .noneV
    unfold extractField
    rw [hnone]

/-- Witness for C8 (amended): a clip element with everything missing
constructs successfully, with absent extractor fields and
`loopOn = False`. -/
theorem clip_missing_defaults_witness :
    mkClip emptyClipElem = .ok emptyClipResult ∧
    emptyClipResult.loopOn = .boolV false ∧
    emptyClipResult.name = .noneV ∧
    emptyClipResult.currentStart = .noneV :=
  ⟨rfl, (clip_missing_defaults emptyClipElem emptyClipResult rfl).1 rfl,
   (clip_missing_defaults emptyClipElem emptyClipResult rfl).2.1 rfl,
   (clip_missing_defaults emptyClipElem emptyClipResult rfl).2.2 rfl⟩

/-- Counterexample to C9 as stated: a note event with
`OffVelocity="64"` stores `offVelocity` as the integer `64`
(`int(...)` in the source), not as a floating-point value; only
`velocity` is stored as a float. -/
theorem offVelocity_int_counterexample :
    mkMidiNote (some 60) noteVelElem = .ok noteVelResult ∧
    noteVelResult.offVelocity = .intV 64 ∧
    isFloatV noteVelResult.offVelocity = false ∧
    isFloatV noteVelResult.velocity = true :=
  ⟨rfl, rfl, rfl, rfl⟩

/-- C9 amended: in every built note record, `velocity` is stored as a
floating-point value and `offVelocity` as an integer. -/
theorem note_velocity_repr (key : Option Int) (e : Element) (n : ALSMidiNote)
    (h : mkMidiNote key e = .ok n) :
    isFloatV n.velocity = true ∧ isIntV n.offVelocity = true := by
  obtain ⟨t, d, v, ov, _, _, _, _, rfl⟩ := mkMidiNote_ok h
  exact ⟨rfl, rfl⟩

/-- Witness for C9 (amended). -/
theorem note_velocity_repr_witness :
    isFloatV noteVelResult.velocity = true ∧
    isIntV noteVelResult.offVelocity = true :=
  note_velocity_repr (some 60) noteVelElem noteVelResult rfl

/-- C10: automation-event decoding is intolerant: if any event in the
parameter's automation container lacks a `Time` attribute, has a
non-integer `Time`, or has a `Value` the inferred type function cannot
coerce, the whole parameter construction raises (and the raised
exception propagates to the caller, aborting the load). -/
theorem mixerParam_event_fatal (e ev : Element)
    (hmem : ev ∈ findallP e [.tagS "ArrangerAutomation", .tagS "Events", .star])
    (hbad : ev.get "Time" = none ∨
      (∃ s, ev.get "Time" = some s ∧ pyIntParse s = none) ∨
      (∃ er, applyTF (guessTypeForValue (valueForSubtag e [.tagS "Manual"]))
        (ev.get "Value") = .error er)) :
    isOkE (mkMixerParam e) = false := by
  have hev : ∃ er, mkEvent (guessTypeForValue (valueForSubtag e [.tagS "Manual"])) ev
      = .error er := by
    rcases hbad with h | ⟨s, hs, hp⟩ | ⟨er, herr⟩
    · refine ⟨.typeError, ?_⟩
      unfold mkEvent
      have ht : pyIntOfOpt (ev.get "Time") = .error .typeError := by
        rw [h]; rfl
      simp [ht, Bind.bind, Except.bind]
    · refine ⟨.valueError, ?_⟩
      unfold mkEvent
      have ht : pyIntOfOpt (ev.get "Time") = .error .valueError := by
        unfold pyIntOfOpt
        rw [hs]
        dsimp only
        rw [hp]
      simp [ht, Bind.bind, Except.bind]
    · cases ht : pyIntOfOpt (ev.get "Time") with
      | error er0 =>
          refine ⟨er0, ?_⟩
          unfold mkEvent
          simp [ht, Bind.bind, Except.bind]
      | ok t =>
          refine ⟨er, ?_⟩
          unfold mkEvent
          simp [ht, herr, Bind.bind, Except.bind]
  obtain ⟨er, herr⟩ := hev
  obtain ⟨er2, hex⟩ := exMap_error_of_mem hmem herr
  obtain ⟨m, hm⟩ := applyTF_guess_ok (valueForSubtag e [.tagS "Manual"])
  unfold mkMixerParam
  simp [hm, hex, Bind.bind, Except.bind, isOkE]

/-- Witness for C10: a parameter with float-typed manual `"0.75"` and an
automation event whose value is `"abc"` fails to construct. -/
theorem mixerParam_event_fatal_witness :
    isOkE (mkMixerParam badParamElem) = false := by
  apply mixerParam_event_fatal badParamElem badEventElem
  · rw [show findallP badParamElem
        [.tagS "ArrangerAutomation", .tagS "Events", .star] = [badEventElem] from rfl]
    exact List.mem_singleton_self _
  · exact Or.inr (Or.inr ⟨.valueError, rfl⟩)
